import Mathlib

/-!
Shallow embedding of `event_forge` (`src/lib.rs`): a synchronous, in-process
publish/subscribe dispatcher.  `EventManager` stores, per `TypeId`, a vector of
type-erased adapter closures; `subscribe` wraps a typed listener in an adapter
that downcasts the incoming `&dyn Any` and appends it under the listener's
payload `TypeId`; `dispatch` looks up the vector for the event's `TypeId` and
invokes every adapter in order.

Modelling choices:
* A Rust `TypeId` is a `Nat`; distinct payload types have distinct `Nat`s.
* A `&dyn Any` is a `DynRef`: the runtime `TypeId` of the referenced value
  together with an opaque `Nat` encoding of the value.
* The inner typed closures (`impl FnMut(&E)`) are user code, opaque to the
  dispatcher; they are named by `Nat` identifiers and their behaviour is a
  parameter `behav : Nat → W → Nat → Except Unit W` acting on an external
  world `W` (the state every closure may capture and mutate), with
  `Except.error ()` modelling a panic that unwinds out of `dispatch`.
* `dispatch` additionally returns the trace of inner-listener invocations
  `(closure id, payload encoding)` actually performed, in order.
-/

namespace EventForge

/-- A type-erased reference `&dyn Any`: the runtime `TypeId` of the referenced
value and an opaque encoding of the value itself. -/
structure DynRef where
  tid : Nat
  val : Nat
deriving DecidableEq, Repr

/-- `event.downcast_ref::<E>()` where `etid = TypeId::of::<E>()`: succeeds
exactly when the runtime `TypeId` of the value equals `E`'s `TypeId`. -/
def downcast_ref (etid : Nat) (r : DynRef) : Option Nat :=
  if r.tid = etid then some r.val else none

/-- A stored type-erased listener (the `boxed_listener` built by `subscribe`):
it captures `etid = TypeId::of::<E>()` of the inner typed closure's payload
type, and an identifier `lid` naming the inner closure itself. -/
structure Listener where
  etid : Nat
  lid : Nat
deriving DecidableEq, Repr

/-- The registry field `listeners : HashMap<TypeId, Vec<Listener>>`, modelled
as an association list from `TypeId` to the vector of adapters. -/
structure EventManager where
  listeners : List (Nat × List Listener)
deriving DecidableEq, Repr

/-- `EventManager::new()`: an empty registry. -/
def EventManager.new : EventManager := ⟨[]⟩

/-- `self.listeners.get(&type_id)` / `get_mut`: the vector stored under key
`tid`, if present. -/
def getList (m : List (Nat × List Listener)) (tid : Nat) : Option (List Listener) :=
  match m with
  | [] => none
  | (k, v) :: rest => if k = tid then some v else getList rest tid

/-- `self.listeners.entry(type_id).or_insert_with(Vec::new)` followed by
`listeners.push(l)`: append `l` to the vector under `tid`, creating the
vector if the key is absent. -/
def insertListener (m : List (Nat × List Listener)) (tid : Nat) (l : Listener) :
    List (Nat × List Listener) :=
  match m with
  | [] => [(tid, [l])]
  | (k, v) :: rest =>
      if k = tid then (k, v ++ [l]) :: rest
      else (k, v) :: insertListener rest tid l

/-- `EventManager::subscribe::<E>(listener)`: build the adapter capturing the
inner typed closure `lid` together with its payload type's
`etid = TypeId::of::<E>()`, and push it onto the vector keyed by that same
`TypeId`.  Total: subscribing has no error conditions. -/
def subscribe (em : EventManager) (etid : Nat) (lid : Nat) : EventManager :=
  ⟨insertListener em.listeners etid ⟨etid, lid⟩⟩

/-- Fold of `subscribe` over a list of inner-closure identifiers, all for the
same payload type: `L1 .. LN` subscribed in this order. -/
def subscribeAll (em : EventManager) (etid : Nat) (lids : List Nat) : EventManager :=
  lids.foldl (fun e i => subscribe e etid i) em

/-- The behaviour of the user-supplied typed closures, opaque to the
dispatcher: `behav i w v` runs inner closure `i` on payload encoding `v` in
external world `w`, returning the updated world, or `Except.error ()` when the
closure panics. -/
abbrev Behav (W : Type) := Nat → W → Nat → Except Unit W

/-- One invocation record: which inner closure ran, and on which payload. -/
abbrev Invocation := Nat × Nat

/-- The body of the `boxed_listener` adapter built in `subscribe`: downcast
the incoming `&dyn Any` to `&E`; on success invoke the inner typed closure
(recording the invocation, which may panic), on failure do nothing. -/
def adapterRun {W : Type} (behav : Behav W) (l : Listener) (r : DynRef) (w : W) :
    List Invocation × Except Unit W :=
  match downcast_ref l.etid r with
  | some v => ([(l.lid, v)], behav l.lid w v)
  | none => ([], Except.ok w)

/-- The `for listener in listeners { listener(event); }` loop of `dispatch`:
run the adapters left to right, threading the world; a panic unwinds,
skipping every remaining adapter. -/
def dispatchList {W : Type} (behav : Behav W) (ls : List Listener) (r : DynRef) (w : W) :
    List Invocation × Except Unit W :=
  match ls with
  | [] => ([], Except.ok w)
  | l :: rest =>
      match adapterRun behav l r w with
      | (tr, Except.ok w1) =>
          match dispatchList behav rest r w1 with
          | (tr1, res) => (tr ++ tr1, res)
      | (tr, Except.error e) => (tr, Except.error e)

/-- `EventManager::dispatch::<E>(event)`: look up the vector under
`TypeId::of::<E>()` (which is `r.tid`, the runtime type of the dispatched
value); when absent this is a no-op, otherwise run the invocation loop.
Returns the manager (the registry is not mutated by the loop), the trace of
inner-listener invocations, and the final world or the propagated panic. -/
def dispatch {W : Type} (behav : Behav W) (em : EventManager) (r : DynRef) (w : W) :
    EventManager × List Invocation × Except Unit W :=
  match getList em.listeners r.tid with
  | none => (em, [], Except.ok w)
  | some ls =>
      match dispatchList behav ls r w with
      | (tr, res) => (em, tr, res)

/-- The vector of adapters registered for `TypeId` `t`, empty when the key is
absent. -/
def bucket (em : EventManager) (t : Nat) : List Listener :=
  (getList em.listeners t).getD []

/-- Inner closure `lid` is subscribed only to payload type `a`: every adapter
in the registry naming `lid` has payload type `a`. -/
def SubscribedOnly (em : EventManager) (lid a : Nat) : Prop :=
  ∀ p ∈ em.listeners, ∀ l ∈ p.2, l.lid = lid → l.etid = a

instance (em : EventManager) (lid a : Nat) : Decidable (SubscribedOnly em lid a) := by
  unfold SubscribedOnly
  exact inferInstance

/-- Registry invariant: every adapter is stored under the key equal to its own
payload `TypeId`. -/
def WellKeyed (em : EventManager) : Prop :=
  ∀ p ∈ em.listeners, ∀ l ∈ p.2, l.etid = p.1

instance (em : EventManager) : Decidable (WellKeyed em) := by
  unfold WellKeyed
  exact inferInstance

/-- Characterisation of a successful downcast. -/
theorem downcast_ref_eq_some {etid : Nat} {r : DynRef} {v : Nat} :
    downcast_ref etid r = some v ↔ r.tid = etid ∧ v = r.val := by
  constructor
  · intro h
    unfold downcast_ref at h
    split at h
    · rename_i ht
      cases h
      exact ⟨ht, rfl⟩
    · cases h
  · rintro ⟨h1, h2⟩
    subst h2
    simp [downcast_ref, h1]

/-- A downcast to the value's own runtime type succeeds. -/
theorem downcast_ref_self {etid : Nat} {r : DynRef} (h : r.tid = etid) :
    downcast_ref etid r = some r.val := by
  simp [downcast_ref, h]

/-- A downcast to any other type fails. -/
theorem downcast_ref_ne {etid : Nat} {r : DynRef} (h : r.tid ≠ etid) :
    downcast_ref etid r = none := by
  simp [downcast_ref, h]

/-- A bucket returned by lookup is an entry of the registry. -/
theorem getList_mem {m : List (Nat × List Listener)} {k : Nat} {ls : List Listener}
    (h : getList m k = some ls) : (k, ls) ∈ m := by
  induction m with
  | nil => simp [getList] at h
  | cons p rest ih =>
      obtain ⟨k1, v⟩ := p
      unfold getList at h
      split at h
      · simp_all
      · simp [List.mem_cons, ih h]

/-- Lookup after insert at the same key: the vector grows by one at the end,
and is created when absent. -/
theorem getList_insertListener_self (m : List (Nat × List Listener)) (t : Nat) (l : Listener) :
    getList (insertListener m t l) t = some ((getList m t).getD [] ++ [l]) := by
  induction m with
  | nil => simp [insertListener, getList]
  | cons p rest ih =>
      obtain ⟨k, v⟩ := p
      unfold insertListener
      split
      · simp_all [getList]
      · simp_all [getList]

/-- Lookup after insert at a different key is unchanged. -/
theorem getList_insertListener_ne {m : List (Nat × List Listener)} {t t1 : Nat}
    (l : Listener) (h : t1 ≠ t) :
    getList (insertListener m t l) t1 = getList m t1 := by
  induction m with
  | nil => simp [insertListener, getList, Ne.symm h]
  | cons p rest ih =>
      obtain ⟨k, v⟩ := p
      unfold insertListener
      split
      · unfold getList
        split <;> simp_all
      · simp_all [getList]

/-- `subscribe` appends to the bucket of its own payload type. -/
theorem bucket_subscribe_self (em : EventManager) (t lid : Nat) :
    bucket (subscribe em t lid) t = bucket em t ++ [⟨t, lid⟩] := by
  simp [bucket, subscribe, getList_insertListener_self]

/-- `subscribe` leaves every other bucket unchanged. -/
theorem bucket_subscribe_ne (em : EventManager) {a b : Nat} (lid : Nat) (h : a ≠ b) :
    bucket (subscribe em b lid) a = bucket em a := by
  simp [bucket, subscribe, getList_insertListener_ne _ h]

/-- `dispatch` is the invocation loop over the bucket of the event's runtime
type, with the registry passed through unchanged. -/
theorem dispatch_eq (behav : Behav W) (em : EventManager) (r : DynRef) (w : W) :
    dispatch behav em r w = (em, dispatchList behav (bucket em r.tid) r w) := by
  unfold dispatch bucket
  cases h : getList em.listeners r.tid with
  | none => simp [dispatchList]
  | some ls => simp

/-- Unfolding `adapterRun` on a successful downcast. -/
theorem adapterRun_eq_of_downcast_some (behav : Behav W) (l : Listener) (r : DynRef)
    (w : W) (v : Nat) (hd : downcast_ref l.etid r = some v) :
    adapterRun behav l r w = ([(l.lid, v)], behav l.lid w v) := by
  unfold adapterRun
  rw [hd]

/-- Unfolding `adapterRun` on a failed downcast: the adapter is a no-op. -/
theorem adapterRun_eq_of_downcast_none (behav : Behav W) (l : Listener) (r : DynRef)
    (w : W) (hd : downcast_ref l.etid r = none) :
    adapterRun behav l r w = ([], Except.ok w) := by
  unfold adapterRun
  rw [hd]

/-- Unfolding the loop when the head adapter returns normally. -/
theorem dispatchList_cons_ok (behav : Behav W) (l : Listener) (rest : List Listener)
    (r : DynRef) (w : W) (tr : List Invocation) (w1 : W)
    (hA : adapterRun behav l r w = (tr, Except.ok w1)) :
    dispatchList behav (l :: rest) r w =
      (tr ++ (dispatchList behav rest r w1).1, (dispatchList behav rest r w1).2) := by
  have h1 : dispatchList behav (l :: rest) r w =
      match adapterRun behav l r w with
      | (tr, Except.ok w1) =>
          match dispatchList behav rest r w1 with
          | (tr1, res) => (tr ++ tr1, res)
      | (tr, Except.error e) => (tr, Except.error e) := rfl
  rw [h1, hA]

/-- Unfolding the loop when the head adapter panics: the panic unwinds. -/
theorem dispatchList_cons_error (behav : Behav W) (l : Listener) (rest : List Listener)
    (r : DynRef) (w : W) (tr : List Invocation) (e : Unit)
    (hA : adapterRun behav l r w = (tr, Except.error e)) :
    dispatchList behav (l :: rest) r w = (tr, Except.error e) := by
  have h1 : dispatchList behav (l :: rest) r w =
      match adapterRun behav l r w with
      | (tr, Except.ok w1) =>
          match dispatchList behav rest r w1 with
          | (tr1, res) => (tr ++ tr1, res)
      | (tr, Except.error e) => (tr, Except.error e) := rfl
  rw [h1, hA]

/-- The invocation loop splits over list append, with a panic in the first
part skipping the second entirely. -/
theorem dispatchList_append (behav : Behav W) (xs ys : List Listener) (r : DynRef) (w : W) :
    dispatchList behav (xs ++ ys) r w =
      match dispatchList behav xs r w with
      | (tr, Except.ok w1) =>
          match dispatchList behav ys r w1 with
          | (tr1, res) => (tr ++ tr1, res)
      | (tr, Except.error e) => (tr, Except.error e) := by
  induction xs generalizing w with
  | nil => simp [dispatchList]
  | cons l rest ih =>
      rw [List.cons_append]
      cases hA : adapterRun behav l r w with
      | mk tr res =>
          cases res with
          | ok w1 =>
              rw [dispatchList_cons_ok behav l (rest ++ ys) r w tr w1 hA,
                dispatchList_cons_ok behav l rest r w tr w1 hA, ih w1]
              cases hX : dispatchList behav rest r w1 with
              | mk trx resx =>
                  cases resx with
                  | ok w2 =>
                      cases hY : dispatchList behav ys r w2 with
                      | mk ty ry => simp
                  | error e => simp
          | error e =>
              rw [dispatchList_cons_error behav l (rest ++ ys) r w tr e hA,
                dispatchList_cons_error behav l rest r w tr e hA]

/-- Append splitting, first part returning normally. -/
theorem dispatchList_append_ok (behav : Behav W) (xs ys : List Listener) (r : DynRef)
    (w : W) (trx : List Invocation) (w1 : W)
    (hx : dispatchList behav xs r w = (trx, Except.ok w1)) :
    dispatchList behav (xs ++ ys) r w =
      (trx ++ (dispatchList behav ys r w1).1, (dispatchList behav ys r w1).2) := by
  rw [dispatchList_append behav xs ys r w, hx]

/-- Append splitting, first part panicking: the second part never runs. -/
theorem dispatchList_append_error (behav : Behav W) (xs ys : List Listener) (r : DynRef)
    (w : W) (trx : List Invocation) (e : Unit)
    (hx : dispatchList behav xs r w = (trx, Except.error e)) :
    dispatchList behav (xs ++ ys) r w = (trx, Except.error e) := by
  rw [dispatchList_append behav xs ys r w, hx]

/-- When every inner closure succeeds, the loop over a bucket of adapters all
keyed to the event's runtime type invokes each inner closure exactly once, in
order, on the event's payload, and finishes without a panic. -/
theorem dispatchList_all_ok (behav : Behav W) (ls : List Listener) (r : DynRef) (w : W)
    (hb : ∀ i w1 v, ∃ w2, behav i w1 v = Except.ok w2)
    (hk : ∀ l ∈ ls, l.etid = r.tid) :
    ∃ w2, dispatchList behav ls r w = (ls.map (fun l => (l.lid, r.val)), Except.ok w2) := by
  induction ls generalizing w with
  | nil => exact ⟨w, rfl⟩
  | cons l rest ih =>
      have hl : l.etid = r.tid := hk l (List.mem_cons_self l rest)
      have hd : downcast_ref l.etid r = some r.val := downcast_ref_self hl.symm
      obtain ⟨w1, hw1⟩ := hb l.lid w r.val
      obtain ⟨w2, hw2⟩ := ih w1 (fun x hx => hk x (List.mem_cons_of_mem l hx))
      refine ⟨w2, ?_⟩
      simp [dispatchList, adapterRun, hd, hw1, hw2]

/-- Every invocation performed by the loop comes from an adapter in the list
whose captured payload type equals the event's runtime type, and carries the
event's payload. -/
theorem dispatchList_trace_mem (behav : Behav W) (ls : List Listener) (r : DynRef) (w : W)
    {p : Invocation} (hp : p ∈ (dispatchList behav ls r w).1) :
    ∃ l ∈ ls, l.lid = p.1 ∧ l.etid = r.tid ∧ p.2 = r.val := by
  induction ls generalizing w with
  | nil => simp [dispatchList] at hp
  | cons l rest ih =>
      cases hd : downcast_ref l.etid r with
      | none =>
          have hA := adapterRun_eq_of_downcast_none behav l r w hd
          rw [dispatchList_cons_ok behav l rest r w [] w hA, List.nil_append] at hp
          obtain ⟨x, hx, hh⟩ := ih w hp
          exact ⟨x, List.mem_cons_of_mem l hx, hh⟩
      | some v =>
          obtain ⟨htid, hv⟩ := downcast_ref_eq_some.mp hd
          have hA := adapterRun_eq_of_downcast_some behav l r w v hd
          cases hB : behav l.lid w v with
          | ok w1 =>
              rw [hB] at hA
              rw [dispatchList_cons_ok behav l rest r w [(l.lid, v)] w1 hA,
                List.singleton_append, List.mem_cons] at hp
              rcases hp with hp | hp
              · exact ⟨l, List.mem_cons_self l rest, by simp [hp, htid, hv]⟩
              · obtain ⟨x, hx, hh⟩ := ih w1 hp
                exact ⟨x, List.mem_cons_of_mem l hx, hh⟩
          | error e =>
              rw [hB] at hA
              rw [dispatchList_cons_error behav l rest r w [(l.lid, v)] e hA,
                List.mem_singleton] at hp
              exact ⟨l, List.mem_cons_self l rest, by simp [hp, htid, hv]⟩

/-- `insertListener` with a matching key preserves the well-keyed invariant. -/
theorem wellKeyedL_insert {m : List (Nat × List Listener)} {t lid : Nat}
    (h : ∀ p ∈ m, ∀ l ∈ p.2, l.etid = p.1) :
    ∀ p ∈ insertListener m t ⟨t, lid⟩, ∀ l ∈ p.2, l.etid = p.1 := by
  induction m with
  | nil => simp [insertListener]
  | cons q rest ih =>
      obtain ⟨k, v⟩ := q
      unfold insertListener
      split
      · rename_i hk
        intro p hp l hl
        rcases List.mem_cons.mp hp with hp | hp
        · subst hp
          rcases List.mem_append.mp hl with hl | hl
          · exact h (k, v) (List.mem_cons_self _ _) l hl
          · simp_all
        · exact h p (List.mem_cons_of_mem _ hp) l hl
      · intro p hp l hl
        rcases List.mem_cons.mp hp with hp | hp
        · subst hp
          exact h (k, v) (List.mem_cons_self _ _) l hl
        · exact ih (fun q hq => h q (List.mem_cons_of_mem _ hq)) p hp l hl

/-- Under the well-keyed invariant, every adapter in the bucket for `t` has
captured payload type `t`. -/
theorem wellKeyed_bucket {em : EventManager} (h : WellKeyed em) {t : Nat} {l : Listener}
    (hl : l ∈ bucket em t) : l.etid = t := by
  unfold bucket at hl
  cases hg : getList em.listeners t with
  | none => simp [hg] at hl
  | some ls =>
      rw [hg] at hl
      simp only [Option.getD_some] at hl
      exact h (t, ls) (getList_mem hg) l hl

/-- Membership in a bucket comes from a successful lookup. -/
theorem bucket_mem {em : EventManager} {t : Nat} {l : Listener} (h : l ∈ bucket em t) :
    ∃ ls, getList em.listeners t = some ls ∧ l ∈ ls := by
  unfold bucket at h
  cases hg : getList em.listeners t with
  | none =>
      rw [hg] at h
      simp at h
  | some ls =>
      rw [hg] at h
      simp only [Option.getD_some] at h
      exact ⟨ls, rfl, h⟩

/-- Subscribing a batch of closures to type `t` appends their adapters, in
order, to the bucket for `t`. -/
theorem bucket_subscribeAll (em : EventManager) (t : Nat) (lids : List Nat) :
    bucket (subscribeAll em t lids) t
      = bucket em t ++ lids.map (fun i => Listener.mk t i) := by
  induction lids generalizing em with
  | nil => simp [subscribeAll]
  | cons i rest ih =>
      have h1 : subscribeAll em t (i :: rest) = subscribeAll (subscribe em t i) t rest := rfl
      rw [h1, ih (subscribe em t i), bucket_subscribe_self]
      simp

/-- The empty registry is well-keyed. -/
theorem wellKeyed_new : WellKeyed EventManager.new := by
  intro p hp
  simp [EventManager.new] at hp

/-- `subscribe` preserves the well-keyed invariant: the adapter it builds is
stored under its own captured payload `TypeId`. -/
theorem wellKeyed_subscribe {em : EventManager} (h : WellKeyed em) (t lid : Nat) :
    WellKeyed (subscribe em t lid) :=
  wellKeyedL_insert h

/-- A concrete all-succeeding behaviour over world `Nat`. -/
def okBehav : Behav Nat := fun _ w _ => Except.ok w

/-- A concrete behaviour over world `Nat` in which closure `bad` panics and
every other closure increments the world. -/
def failBehav (bad : Nat) : Behav Nat :=
  fun i w _ => if i = bad then Except.error () else Except.ok (w + 1)

/-- A concrete manager: closures 1 and 2 subscribed to type 0, in order. -/
def emTwo : EventManager := subscribe (subscribe EventManager.new 0 1) 0 2

/-- A concrete manager: closure 3 subscribed to type 0. -/
def emOne : EventManager := subscribe EventManager.new 0 3

/-- A concrete manager: closures 1, 2, 3 subscribed to type 0, in order. -/
def emThree : EventManager := subscribeAll EventManager.new 0 [1, 2, 3]

/-- A concrete manager: closure 1 on type 0 subscribed before closure 2 on
type 1. -/
def emA : EventManager := subscribe (subscribe EventManager.new 0 1) 1 2

/-- A concrete manager extensionally equal to `emA` but with the two keys
created in the opposite order. -/
def emB : EventManager := subscribe (subscribe EventManager.new 1 2) 0 1

/-- C1 (type isolation): for any registry in which inner closure `lid` is
subscribed only to payload type `a`, a dispatch of a value whose runtime type
differs from `a` never invokes that closure: no invocation record naming
`lid` appears in the dispatch trace, whatever the payload encoding. -/
theorem C1_type_isolation (behav : Behav W) (em : EventManager) (r : DynRef) (w : W)
    (lid a : Nat) (honly : SubscribedOnly em lid a) (hne : r.tid ≠ a) (v : Nat) :
    (lid, v) ∉ (dispatch behav em r w).2.1 := by
  intro hmem
  rw [dispatch_eq] at hmem
  simp only at hmem
  obtain ⟨l, hl, hlid, hetid, _⟩ := dispatchList_trace_mem behav (bucket em r.tid) r w hmem
  obtain ⟨ls, hg, hls⟩ := bucket_mem hl
  have ha : l.etid = a := honly (r.tid, ls) (getList_mem hg) l hls hlid
  exact hne (hetid ▸ ha)

/-- C1 witness: closure 5 subscribed only to type 0 is not invoked when a
value of type 1 is dispatched. -/
theorem C1_type_isolation_witness :
    SubscribedOnly (subscribe EventManager.new 0 5) 5 0 ∧ (1 : Nat) ≠ 0 ∧
      (5, 42) ∉ (dispatch okBehav (subscribe EventManager.new 0 5) ⟨1, 42⟩ 0).2.1 :=
  ⟨by decide, by decide,
    C1_type_isolation okBehav (subscribe EventManager.new 0 5) ⟨1, 42⟩ 0 5 0
      (by decide) (by decide) 42⟩

/-- C2 (order preservation): subscribing inner closures `L1 .. LN` to payload
type `t` in that order, starting from the empty manager, and then dispatching
one `t`-value whose closures all return normally, invokes exactly
`L1, L2, ..., LN` in that sequence, each on the event's payload. -/
theorem C2_order_preservation (behav : Behav W) (t : Nat) (lids : List Nat)
    (r : DynRef) (w : W) (ht : r.tid = t)
    (hb : ∀ i w1 v, ∃ w2, behav i w1 v = Except.ok w2) :
    (dispatch behav (subscribeAll EventManager.new t lids) r w).2.1
      = lids.map (fun i => (i, r.val)) := by
  subst ht
  have hbk : bucket (subscribeAll EventManager.new r.tid lids) r.tid
      = lids.map (fun i => Listener.mk r.tid i) := by
    rw [bucket_subscribeAll]
    simp [bucket, EventManager.new, getList]
  have hk : ∀ l ∈ lids.map (fun i => Listener.mk r.tid i), l.etid = r.tid := by
    intro l hl
    obtain ⟨i, _, hi⟩ := List.mem_map.mp hl
    rw [← hi]
  obtain ⟨w2, hw2⟩ :=
    dispatchList_all_ok behav (lids.map (fun i => Listener.mk r.tid i)) r w hb hk
  rw [dispatch_eq]
  simp only [hbk, hw2, List.map_map]
  rfl

/-- C2 witness: closures 1 then 2 subscribed to type 0; dispatching payload 7
of type 0 invokes 1 then 2, in order. -/
theorem C2_order_preservation_witness :
    (dispatch okBehav (subscribeAll EventManager.new 0 [1, 2]) ⟨0, 7⟩ 0).2.1
      = [(1, 7), (2, 7)] :=
  C2_order_preservation okBehav 0 [1, 2] ⟨0, 7⟩ 0 rfl (fun _ w1 _ => ⟨w1, rfl⟩)

/-- C3 (exactly-once invocation and repeatability): on a well-keyed registry
whose closures all return normally, one dispatch invokes exactly the currently
registered listeners for the event's type, once each in registration order;
and a second dispatch of the same event, from the state the first returned,
performs the same invocation sequence. -/
theorem C3_exactly_once_repeatable (behav : Behav W) (em : EventManager)
    (r : DynRef) (w w' : W) (hWK : WellKeyed em)
    (hb : ∀ i w1 v, ∃ w2, behav i w1 v = Except.ok w2) :
    (dispatch behav em r w).2.1 = (bucket em r.tid).map (fun l => (l.lid, r.val))
    ∧ (dispatch behav (dispatch behav em r w).1 r w').2.1
        = (dispatch behav em r w).2.1 := by
  have hk : ∀ l ∈ bucket em r.tid, l.etid = r.tid := fun l hl => wellKeyed_bucket hWK hl
  obtain ⟨w2, hw2⟩ := dispatchList_all_ok behav (bucket em r.tid) r w hb hk
  obtain ⟨w3, hw3⟩ := dispatchList_all_ok behav (bucket em r.tid) r w' hb hk
  constructor
  · rw [dispatch_eq]
    simp only [hw2]
  · have h1 : (dispatch behav em r w).1 = em := by rw [dispatch_eq]
    rw [h1, dispatch_eq, dispatch_eq]
    simp only [hw2, hw3]

/-- C3 witness: closures 1 and 2 on type 0; dispatching payload 9 of type 0
twice gives the trace `[(1, 9), (2, 9)]` both times. -/
theorem C3_exactly_once_repeatable_witness :
    WellKeyed emTwo
    ∧ ((dispatch okBehav emTwo ⟨0, 9⟩ 0).2.1
          = (bucket emTwo 0).map (fun l => (l.lid, 9))
        ∧ (dispatch okBehav (dispatch okBehav emTwo ⟨0, 9⟩ 0).1 ⟨0, 9⟩ 5).2.1
          = (dispatch okBehav emTwo ⟨0, 9⟩ 0).2.1) :=
  ⟨by decide,
    C3_exactly_once_repeatable okBehav emTwo ⟨0, 9⟩ 0 5 (by decide)
      (fun _ w1 _ => ⟨w1, rfl⟩)⟩

/-- C4 (no listeners, no-op): when the bucket for the event's runtime type is
empty (in particular when its key was never created), dispatch returns the
registry unchanged, performs no invocation, and reports no error. -/
theorem C4_no_listeners_noop (behav : Behav W) (em : EventManager) (r : DynRef) (w : W)
    (h : bucket em r.tid = []) :
    dispatch behav em r w = (em, [], Except.ok w) := by
  rw [dispatch_eq, h]
  rfl

/-- C4 witness: dispatching type 3 on the empty manager is a silent no-op. -/
theorem C4_no_listeners_noop_witness :
    bucket EventManager.new 3 = []
    ∧ dispatch okBehav EventManager.new ⟨3, 9⟩ 0 = (EventManager.new, [], Except.ok 0) :=
  ⟨rfl, C4_no_listeners_noop okBehav EventManager.new ⟨3, 9⟩ 0 rfl⟩

/-- C5 (subscribe is an unconditional append): from every registry state,
subscribing inner closure `lid` for payload type `t` stores the adapter at the
end of the vector keyed by `t`, creating that vector when `t` had no entry;
`subscribe` is total, with no error outcome. -/
theorem C5_subscribe_appends (em : EventManager) (t lid : Nat) :
    getList (subscribe em t lid).listeners t = some (bucket em t ++ [⟨t, lid⟩]) := by
  simp [subscribe, bucket, getList_insertListener_self]

/-- C6 (dispatch never mutates the registry): the manager returned by any
dispatch call is exactly the manager it started from — no listener added or
removed, no type key created or deleted. -/
theorem C6_dispatch_preserves_registry (behav : Behav W) (em : EventManager)
    (r : DynRef) (w : W) :
    (dispatch behav em r w).1 = em := by
  rw [dispatch_eq]

/-- C7 (independent registries): subscribing a further closure to type `b`
changes neither the stored listener sequence for a distinct type `a` nor the
invocations and outcome of dispatching an `a`-value. -/
theorem C7_independent_registries (behav : Behav W) (em : EventManager)
    (a b lid : Nat) (r : DynRef) (w : W) (hab : a ≠ b) (hr : r.tid = a) :
    getList (subscribe em b lid).listeners a = getList em.listeners a
    ∧ (dispatch behav (subscribe em b lid) r w).2 = (dispatch behav em r w).2 := by
  subst hr
  constructor
  · exact getList_insertListener_ne ⟨b, lid⟩ hab
  · rw [dispatch_eq, dispatch_eq, bucket_subscribe_ne em lid hab]

/-- C7 witness: subscribing closure 9 to type 1 leaves both the bucket for
type 0 and the result of dispatching a type-0 value unchanged. -/
theorem C7_independent_registries_witness :
    (0 : Nat) ≠ 1
    ∧ (getList (subscribe emOne 1 9).listeners 0 = getList emOne.listeners 0
        ∧ (dispatch okBehav (subscribe emOne 1 9) ⟨0, 4⟩ 0).2
          = (dispatch okBehav emOne ⟨0, 4⟩ 0).2) :=
  ⟨by decide, C7_independent_registries okBehav emOne 0 1 9 ⟨0, 4⟩ 0 (by decide) rfl⟩

/-- C8 (listener failure propagation): when, during a dispatch, the adapters
before position `i` in the bucket run normally and the adapter at position `i`
downcasts successfully but its inner closure panics, the dispatch call ends
with that panic: the trace stops at the failing listener — none of the
adapters after position `i` is invoked — and the error propagates to the
caller. -/
theorem C8_failure_propagates (behav : Behav W) (em : EventManager) (r : DynRef)
    (w w1 : W) (trp : List Invocation) (l : Listener) (post pre : List Listener)
    (hbucket : bucket em r.tid = pre ++ l :: post)
    (hpre : dispatchList behav pre r w = (trp, Except.ok w1))
    (hl : downcast_ref l.etid r = some r.val)
    (hfail : behav l.lid w1 r.val = Except.error ()) :
    (dispatch behav em r w).2 = (trp ++ [(l.lid, r.val)], Except.error ()) := by
  have hA : adapterRun behav l r w1 = ([(l.lid, r.val)], Except.error ()) := by
    rw [adapterRun_eq_of_downcast_some behav l r w1 r.val hl, hfail]
  have hcons := dispatchList_cons_error behav l post r w1 [(l.lid, r.val)] () hA
  rw [dispatch_eq, hbucket,
    dispatchList_append_ok behav pre (l :: post) r w trp w1 hpre, hcons]

/-- C8 witness: closures 1, 2, 3 on type 0 where closure 2 panics; dispatch
invokes 1 and 2 only, and returns the propagated panic. -/
theorem C8_failure_propagates_witness :
    (dispatch (failBehav 2) emThree ⟨0, 5⟩ 0).2
      = ([(1, 5), (2, 5)], Except.error ()) :=
  C8_failure_propagates (failBehav 2) emThree ⟨0, 5⟩ 0 1 [(1, 5)] ⟨0, 2⟩
    [⟨0, 3⟩] [⟨0, 1⟩] rfl rfl rfl rfl

/-- C9 (the adapter's type check is redundant during dispatch): the empty
registry is well-keyed and `subscribe` preserves well-keyedness, so every
adapter stored under the key for a type wraps a listener for exactly that
type; on a well-keyed registry, every adapter fetched by a dispatch downcasts
successfully (its mismatch branch is unreachable); and whenever the downcast
does fail, the adapter invokes nothing and leaves the world untouched. -/
theorem C9_adapter_check_redundant (behav : Behav W) (em : EventManager)
    (hWK : WellKeyed em) :
    WellKeyed EventManager.new
    ∧ (∀ t lid, WellKeyed (subscribe em t lid))
    ∧ (∀ (r : DynRef) (ls : List Listener), getList em.listeners r.tid = some ls →
        ∀ l ∈ ls, downcast_ref l.etid r = some r.val)
    ∧ (∀ (l : Listener) (r : DynRef) (w : W), downcast_ref l.etid r = none →
        adapterRun behav l r w = ([], Except.ok w)) := by
  refine ⟨wellKeyed_new, ?_, ?_, ?_⟩
  · intro t lid
    exact wellKeyed_subscribe hWK t lid
  · intro r ls hg l hl
    have h1 : l.etid = r.tid := hWK (r.tid, ls) (getList_mem hg) l hl
    exact downcast_ref_self h1.symm
  · intro l r w hd
    exact adapterRun_eq_of_downcast_none behav l r w hd

/-- C9 witness: a concrete well-keyed registry, and a concrete mismatched
adapter (type 1 against a type-0 value) that does nothing. -/
theorem C9_adapter_check_redundant_witness :
    WellKeyed (subscribe EventManager.new 0 1)
    ∧ adapterRun okBehav ⟨1, 5⟩ ⟨0, 3⟩ (0 : Nat) = ([], Except.ok 0) :=
  ⟨by decide,
    (C9_adapter_check_redundant okBehav (subscribe EventManager.new 0 1)
      (by decide)).2.2.2 ⟨1, 5⟩ ⟨0, 3⟩ 0 rfl⟩

/-- C10 (dispatch is deterministic): two dispatch runs with the same closure
behaviours, the same event and the same world, on registries that store the
same listener sequence under every type key, perform the identical invocation
sequence and produce the identical outcome; and each run returns its own
registry unchanged. -/
theorem C10_dispatch_deterministic (behav : Behav W) (emX emY : EventManager)
    (r : DynRef) (w : W)
    (h : ∀ k, getList emX.listeners k = getList emY.listeners k) :
    (dispatch behav emX r w).2 = (dispatch behav emY r w).2
    ∧ (dispatch behav emX r w).1 = emX ∧ (dispatch behav emY r w).1 = emY := by
  have hb : bucket emX r.tid = bucket emY r.tid := by
    unfold bucket
    rw [h r.tid]
  refine ⟨?_, ?_, ?_⟩
  · rw [dispatch_eq, dispatch_eq, hb]
  · rw [dispatch_eq]
  · rw [dispatch_eq]

/-- C10 witness: two registries holding the same listeners with their two type
keys created in opposite orders; dispatching the same type-0 event gives the
identical trace and outcome. -/
theorem C10_dispatch_deterministic_witness :
    (dispatch okBehav emA ⟨0, 8⟩ 0).2 = (dispatch okBehav emB ⟨0, 8⟩ 0).2
    ∧ (dispatch okBehav emA ⟨0, 8⟩ 0).1 = emA
    ∧ (dispatch okBehav emB ⟨0, 8⟩ 0).1 = emB :=
  C10_dispatch_deterministic okBehav emA emB ⟨0, 8⟩ 0
    (by
      intro k
      cases k with
      | zero => rfl
      | succ n =>
          cases n with
          | zero => rfl
          | succ m => rfl)

end EventForge
